import Mathlib

/-!
Shallow embedding of the process-lifecycle and streaming-execution subsystem
of `bot.py` (Termux Web Terminal Pro).

OS interaction (spawning a child, resolving a process through psutil,
enumerating descendants, delivering signals) is modelled by oracle inputs
that describe the outcome of each OS call; the Python `dict`
`state.processes` is modelled as an insertion-ordered association list with
Python assignment and deletion semantics, and `state.logs` as a `List
String`.  Wall-clock timestamps are explicit inputs.  Responses are records
carrying the `success` flag, the human-readable message and the reported
pid list.
-/

/-- Python substring test `needle in haystack`, on lists of characters. -/
def containsSub (needle : List Char) : List Char → Bool
  | [] => needle.isEmpty
  | h :: t => needle.isPrefixOf (h :: t) || containsSub needle t

/-- Python `needle in haystack` for strings (raw, case-sensitive). -/
def pyIn (needle haystack : String) : Bool :=
  containsSub needle.data haystack.data

/-- Python `str.rstrip()`: drop trailing whitespace. -/
def rstrip (s : String) : String :=
  String.mk ((s.data.reverse.dropWhile Char.isWhitespace).reverse)

/-- Metadata stored for a tracked process (`state.processes[pid]`); the live
`subprocess.Popen` handle itself carries no information used by the routes
beyond the pid, so it is not duplicated here. -/
structure ProcInfo where
  cmd : String
  kind : String
deriving DecidableEq

/-- `state.processes`: a Python dict from pid to metadata, kept as an
insertion-ordered association list. -/
abbrev Registry := List (Nat × ProcInfo)

/-- Python dict assignment `d[k] = v`: update the entry in place when the key
is already present, otherwise append at the end (insertion order). -/
def dictSet (d : Registry) (k : Nat) (v : ProcInfo) : Registry :=
  if d.any (fun p => p.1 == k) then
    d.map (fun p => if p.1 == k then (k, v) else p)
  else
    d ++ [(k, v)]

/-- Python `del d[k]` on a dict (keys are unique, so filtering is exact). -/
def dictDelete (d : Registry) (k : Nat) : Registry :=
  d.filter (fun p => !(p.1 == k))

/-- Python `d.get(k)`; `k in d` is `(dictLookup d k).isSome`. -/
def dictLookup (d : Registry) (k : Nat) : Option ProcInfo :=
  (d.find? (fun p => p.1 == k)).map (fun p => p.2)

/-- The mutable global state of bot.py that the modelled routes touch:
the process registry and the log buffer. -/
structure TermState where
  processes : Registry
  logs : List String
deriving DecidableEq

/-- `log_message(msg, level)` from bot.py: append the formatted entry, then
keep only the most recent 1000 entries (`state.logs = state.logs[-1000:]`
when the length exceeds 1000).  The timestamp is an explicit input. -/
def log_message (st : TermState) (timestamp msg level : String) : TermState :=
  let log_entry := "[" ++ timestamp ++ "] [" ++ level ++ "] " ++ msg
  let logs1 := st.logs ++ [log_entry]
  { st with logs := if 1000 < logs1.length then logs1.drop (logs1.length - 1000) else logs1 }

/-- Outcome of the OS calls made by `kill_process_tree(pid)`: resolving the
root (`psutil.Process(pid)`), enumerating descendants
(`parent.children(recursive=True)`), and the per-process `kill()` calls,
whose individual failures are swallowed by the inner bare handlers and are
therefore recorded only as flags. -/
inductive KillWorld where
  | noSuchProcess
  | resolveError (msg : String)
  | childrenNoSuchProcess
  | childrenError (msg : String)
  | resolved (childKillFails : List Bool) (parentKillFail : Bool)
deriving DecidableEq

/-- `kill_process_tree(pid)` from bot.py.  `psutil.NoSuchProcess` (raised by
either `psutil.Process(pid)` or `parent.children`) hits the first handler
and returns `False`; any other exception escaping the outer `try` (from
resolution or from enumerating children) hits the generic handler, is
logged, and returns `False`; once the children list is obtained, every
`kill()` failure is swallowed and the function returns `True`. -/
def kill_process_tree (w : KillWorld) : Bool :=
  match w with
  | .resolved _ _ => true
  | .noSuchProcess => false
  | .childrenNoSuchProcess => false
  | .resolveError _ => false
  | .childrenError _ => false

/-- Outcome of `subprocess.Popen(cmd, shell=True, ...)`: either the spawn
call raises, or it yields a child with a pid, the raw lines later read from
its merged output pipe, and its eventual exit code. -/
inductive SpawnResult where
  | spawnError (msg : String)
  | spawned (pid : Nat) (outputLines : List String) (exitCode : Int)
deriving DecidableEq

/-- `execute_command_stream(cmd, cwd)` from bot.py, as the list of emitted
chunks paired with the final state.  On successful spawn the pid is
registered (`state.processes[pid] = ...` with the python/bash kind
classification), each non-empty line is emitted as `line.rstrip() + "\n"`,
the pid is deleted from the registry after the `wait()`, and finally the
terminal marker chunk `"\n[Process completed with exit code: N]\n"` is
emitted.  If the spawn raises, the single error chunk is emitted and the
registry is never touched. -/
def execute_command_stream (st : TermState) (timestamp cmd : String) (spawn : SpawnResult) :
    List String × TermState :=
  let st1 := log_message st timestamp ("Executing: " ++ cmd) "COMMAND"
  match spawn with
  | .spawnError msg => (["Error executing command: " ++ msg ++ "\n"], st1)
  | .spawned pid lines code =>
    let info : ProcInfo :=
      ⟨cmd, if pyIn "python" (String.toLower cmd) then "python" else "bash"⟩
    let st2 := { st1 with processes := dictSet st1.processes pid info }
    let chunks := lines.filterMap (fun l => if l = "" then none else some (rstrip l ++ "\n"))
    let st3 := { st2 with processes :=
      if (dictLookup st2.processes pid).isSome then dictDelete st2.processes pid
      else st2.processes }
    (chunks ++ ["\n[Process completed with exit code: " ++ toString code ++ "]\n"], st3)

/-- Shape of the JSON responses of the administrative routes: success flag,
message, and the list of killed pids (empty when the route reports none). -/
structure ApiResponse where
  success : Bool
  message : String
  killed : List Nat
deriving DecidableEq

/-- The registry loop shared by `/api/stop` and `/api/kill_all`: iterate over
a snapshot of the items, and for each entry matching `cond` whose
`kill_process_tree` call returns `True`, delete it from the dict and record
its pid.  Log side effects are not modelled. -/
def stopLoop (cond : Nat × ProcInfo → Bool) (killOk : Nat → Bool) :
    List (Nat × ProcInfo) → Registry → List Nat × Registry
  | [], d => ([], d)
  | e :: rest, d =>
    if cond e then
      if killOk e.1 then
        let r := stopLoop cond killOk rest (dictDelete d e.1)
        (e.1 :: r.1, r.2)
      else stopLoop cond killOk rest d
    else stopLoop cond killOk rest d

/-- The system-wide `psutil.process_iter` sweep shared by `/api/stop` and
`/api/kill_all`: for each scanned process matching `cond`, attempt
`kill_process_tree` and record the pid when it returns `True`. -/
def sweepKill {α : Type} (cond : α → Bool) (killOk : α → Bool) (getPid : α → Nat) :
    List α → List Nat
  | [] => []
  | p :: rest =>
    if cond p then
      if killOk p then getPid p :: sweepKill cond killOk getPid rest
      else sweepKill cond killOk getPid rest
    else sweepKill cond killOk getPid rest

/-- `/api/stop` (`api_stop`) from bot.py: kill every tracked process whose
stored command line contains `filename` as a substring, then sweep the OS
process table killing every process whose joined cmdline contains
`filename`; report success iff anything was killed.  `sys` lists the
scannable OS processes as (pid, cmdline argv); processes whose info access
raises are skipped by the bare handler and so are simply absent from
`sys`. -/
def api_stop (procs : Registry) (sys : List (Nat × List String))
    (resolve : Nat → KillWorld) (filename : String) : ApiResponse × Registry :=
  let step := stopLoop (fun e => pyIn filename e.2.cmd)
      (fun pid => kill_process_tree (resolve pid)) procs procs
  let sysKilled := sweepKill (fun p => pyIn filename (String.intercalate " " p.2))
      (fun p => kill_process_tree (resolve p.1)) (fun p => p.1) sys
  let killed := step.1 ++ sysKilled
  if killed.isEmpty then
    (⟨false, "No process found for " ++ filename, []⟩, step.2)
  else
    (⟨true, "Stopped " ++ toString killed.length ++ " processes for " ++ filename, killed⟩,
     step.2)

/-- `/api/stop_pid` (`api_stop_pid`) from bot.py: call `kill_process_tree`;
on `True`, delete the pid from the registry when present and report success;
on `False`, leave the registry untouched and report "not found". -/
def api_stop_pid (procs : Registry) (resolve : Nat → KillWorld) (pid : Nat) :
    ApiResponse × Registry :=
  if kill_process_tree (resolve pid) then
    (⟨true, "Process " ++ toString pid ++ " stopped", []⟩,
     if (dictLookup procs pid).isSome then dictDelete procs pid else procs)
  else
    (⟨false, "Process " ++ toString pid ++ " not found", []⟩, procs)

/-- `/api/kill_all` (`api_kill_all`) from bot.py: iterate over the registry
snapshot killing each entry (deleting it only when `kill_process_tree`
returned `True`), then sweep the OS process table killing every process
whose lowercased name contains `"python"`; always report success.  `sys`
lists the scannable OS processes as (pid, name). -/
def api_kill_all (procs : Registry) (sys : List (Nat × String))
    (resolve : Nat → KillWorld) : ApiResponse × Registry :=
  let step := stopLoop (fun _ => true)
      (fun pid => kill_process_tree (resolve pid)) procs procs
  let sysKilled := sweepKill (fun p => pyIn "python" (String.toLower p.2))
      (fun p => kill_process_tree (resolve p.1)) (fun p => p.1) sys
  let killed := step.1 ++ sysKilled
  (⟨true, "Killed " ++ toString killed.length ++ " processes", killed⟩, step.2)

/-- The two signals `/api/ctrl` can deliver. -/
inductive SigAction where
  | sigint
  | sigtstp
deriving DecidableEq

/-- The loop of `/api/ctrl`: for each tracked pid, `os.kill` is attempted
only when the key is `"C"` or `"Z"`; a dead pid makes `os.kill` raise, which
the bare handler swallows, also skipping that pid's log entry.  For any
other key no `os.kill` runs, so the log entry is written unconditionally.
Returns the delivered signals and the state with the new log entries. -/
def ctrlLoop (alive : Nat → Bool) (key timestamp : String) :
    List (Nat × ProcInfo) → TermState → List (Nat × SigAction) × TermState
  | [], st => ([], st)
  | e :: rest, st =>
    if key = "C" then
      if alive e.1 then
        let st1 := log_message st timestamp
          ("Sent Ctrl+" ++ key ++ " to process " ++ toString e.1) "SIGNAL"
        let r := ctrlLoop alive key timestamp rest st1
        ((e.1, SigAction.sigint) :: r.1, r.2)
      else ctrlLoop alive key timestamp rest st
    else if key = "Z" then
      if alive e.1 then
        let st1 := log_message st timestamp
          ("Sent Ctrl+" ++ key ++ " to process " ++ toString e.1) "SIGNAL"
        let r := ctrlLoop alive key timestamp rest st1
        ((e.1, SigAction.sigtstp) :: r.1, r.2)
      else ctrlLoop alive key timestamp rest st
    else
      let st1 := log_message st timestamp
        ("Sent Ctrl+" ++ key ++ " to process " ++ toString e.1) "SIGNAL"
      ctrlLoop alive key timestamp rest st1

/-- `/api/ctrl` (`api_ctrl`) from bot.py: iterate the loop over the tracked
pids and always return success. -/
def api_ctrl (st : TermState) (timestamp : String) (alive : Nat → Bool) (key : String) :
    List (Nat × SigAction) × TermState × Bool :=
  let r := ctrlLoop alive key timestamp st.processes st
  (r.1, r.2, true)

/-! Helper lemmas about the Python substring test and the dict model. -/

theorem containsSub_nil_needle (l : List Char) : containsSub [] l = true := by
  cases l with
  | nil => rfl
  | cons h t => simp [containsSub, List.isPrefixOf]

theorem pyIn_empty_needle (s : String) : pyIn "" s = true := by
  simpa [pyIn] using containsSub_nil_needle s.data

theorem isPrefixOf_append_right (n a b : List Char) (h : n.isPrefixOf a = true) :
    n.isPrefixOf (a ++ b) = true := by
  induction n generalizing a with
  | nil => simp [List.isPrefixOf]
  | cons x xs ih =>
    cases a with
    | nil => simp [List.isPrefixOf] at h
    | cons y ys =>
      simp only [List.cons_append, List.isPrefixOf, Bool.and_eq_true] at h ⊢
      exact ⟨h.1, ih ys h.2⟩

theorem containsSub_of_isPrefixOf (n l : List Char) (h : n.isPrefixOf l = true) :
    containsSub n l = true := by
  cases l with
  | nil =>
    cases n with
    | nil => rfl
    | cons x xs => simp [List.isPrefixOf] at h
  | cons y ys => simp [containsSub, h]

theorem dictLookup_dictSet_self (d : Registry) (k : Nat) (v : ProcInfo) :
    dictLookup (dictSet d k v) k = some v := by
  unfold dictSet
  by_cases hmem : d.any (fun p => p.1 == k) = true
  · rw [if_pos hmem]
    unfold dictLookup
    induction d with
    | nil => simp at hmem
    | cons e t ih =>
      by_cases he : e.1 == k
      · simp [List.find?, he]
      · have ht : t.any (fun p => p.1 == k) = true := by
          simpa [List.any_cons, he] using hmem
        simp only [List.map_cons, if_neg he]
        rw [List.find?_cons_of_neg _ (by simpa using he)]
        exact ih ht
  · rw [if_neg hmem]
    unfold dictLookup
    induction d with
    | nil => simp [List.find?]
    | cons e t ih =>
      have he : (e.1 == k) = false := by
        cases h : (e.1 == k) with
        | false => rfl
        | true => exact absurd (by simp [List.any_cons, h]) hmem
      have ht : ¬ (t.any (fun p => p.1 == k) = true) := by
        intro hany
        exact hmem (by simp [List.any_cons, hany])
      simp only [List.cons_append]
      rw [List.find?_cons_of_neg _ (by simp [he])]
      exact ih ht

theorem dictLookup_dictDelete_self (d : Registry) (k : Nat) :
    dictLookup (dictDelete d k) k = none := by
  unfold dictLookup dictDelete
  have : (d.filter (fun p => !(p.1 == k))).find? (fun p => p.1 == k) = none := by
    rw [List.find?_eq_none]
    intro x hx hpx
    have := (List.mem_filter.mp hx).2
    simp [hpx] at this
  simp [this]

theorem dictDelete_of_lookup_none (d : Registry) (k : Nat)
    (h : dictLookup d k = none) : dictDelete d k = d := by
  unfold dictLookup at h
  have hfind : d.find? (fun p => p.1 == k) = none := by
    cases hf : d.find? (fun p => p.1 == k) with
    | none => rfl
    | some e => rw [hf] at h; simp at h
  rw [List.find?_eq_none] at hfind
  unfold dictDelete
  rw [List.filter_eq_self]
  intro a ha
  simpa using hfind a ha

theorem dictDelete_guard (d : Registry) (k : Nat) :
    (if (dictLookup d k).isSome then dictDelete d k else d) = dictDelete d k := by
  cases h : dictLookup d k with
  | none => simp [dictDelete_of_lookup_none d k h]
  | some v => simp

theorem stopLoop_fst (cond : Nat × ProcInfo → Bool) (killOk : Nat → Bool)
    (L : List (Nat × ProcInfo)) (d : Registry) :
    (stopLoop cond killOk L d).1
      = (L.filter (fun e => cond e && killOk e.1)).map (fun e => e.1) := by
  induction L generalizing d with
  | nil => rfl
  | cons e rest ih =>
    cases hc : cond e with
    | false => simp [stopLoop, hc, List.filter_cons, ih]
    | true =>
      cases hk : killOk e.1 with
      | false => simp [stopLoop, hc, hk, List.filter_cons, ih]
      | true => simp [stopLoop, hc, hk, List.filter_cons, ih]

theorem stopLoop_snd (cond : Nat × ProcInfo → Bool) (killOk : Nat → Bool)
    (L : List (Nat × ProcInfo)) (d : Registry) :
    (stopLoop cond killOk L d).2
      = d.filter (fun x => !(killOk x.1 && L.any (fun e => e.1 == x.1 && cond e))) := by
  induction L generalizing d with
  | nil => simp [stopLoop]
  | cons e rest ih =>
    cases hc : cond e with
    | false =>
      have hstep : stopLoop cond killOk (e :: rest) d = stopLoop cond killOk rest d := by
        simp [stopLoop, hc]
      rw [hstep, ih]
      apply List.filter_congr
      intro x hx
      simp [List.any_cons, hc]
    | true =>
      cases hk : killOk e.1 with
      | false =>
        have hstep : stopLoop cond killOk (e :: rest) d = stopLoop cond killOk rest d := by
          simp [stopLoop, hc, hk]
        rw [hstep, ih]
        apply List.filter_congr
        intro x hx
        cases hx1 : (e.1 == x.1) with
        | false => simp [List.any_cons, hc, hx1]
        | true =>
          have hxe : e.1 = x.1 := by simpa using hx1
          simp [List.any_cons, hc, hx1, ← hxe, hk]
      | true =>
        have hstep : (stopLoop cond killOk (e :: rest) d).2
            = (stopLoop cond killOk rest (dictDelete d e.1)).2 := by
          simp [stopLoop, hc, hk]
        rw [hstep, ih]
        unfold dictDelete
        rw [List.filter_filter]
        apply List.filter_congr
        intro x hx
        cases hx1 : (x.1 == e.1) with
        | true =>
          have hxe : x.1 = e.1 := by simpa using hx1
          simp [List.any_cons, hc, hk, hxe, hx1]
        | false =>
          have hne : ¬ (x.1 = e.1) := by simpa using hx1
          have h2 : (e.1 == x.1) = false := by
            simp only [beq_eq_false_iff_ne]
            exact fun h => hne h.symm
          simp [List.any_cons, hx1, h2]

theorem sweepKill_eq {α : Type} (cond killOk : α → Bool) (getPid : α → Nat) (l : List α) :
    sweepKill cond killOk getPid l = (l.filter (fun p => cond p && killOk p)).map getPid := by
  induction l with
  | nil => rfl
  | cons p rest ih =>
    cases hc : cond p with
    | false => simp [sweepKill, hc, List.filter_cons, ih]
    | true =>
      cases hk : killOk p with
      | false => simp [sweepKill, hc, hk, List.filter_cons, ih]
      | true => simp [sweepKill, hc, hk, List.filter_cons, ih]

theorem ctrlLoop_other_key (alive : Nat → Bool) (key timestamp : String)
    (hC : key ≠ "C") (hZ : key ≠ "Z") (L : List (Nat × ProcInfo)) (st : TermState) :
    ctrlLoop alive key timestamp L st =
      ([], L.foldl (fun s e =>
        log_message s timestamp ("Sent Ctrl+" ++ key ++ " to process " ++ toString e.1) "SIGNAL") st) := by
  induction L generalizing st with
  | nil => rfl
  | cons e rest ih => simp [ctrlLoop, hC, hZ, List.foldl_cons, ih]

theorem pyIn_error_line (msg : String) :
    pyIn "Error executing command:" ("Error executing command: " ++ msg ++ "\n") = true := by
  unfold pyIn
  apply containsSub_of_isPrefixOf
  have h1 : ("Error executing command: " ++ msg ++ "\n").data
      = "Error executing command: ".data ++ (msg.data ++ "\n".data) := by
    simp [String.data_append, List.append_assoc]
  rw [h1]
  apply isPrefixOf_append_right
  decide

theorem api_stop_snd_eq (procs : Registry) (sys : List (Nat × List String))
    (resolve : Nat → KillWorld) (filename : String) :
    (api_stop procs sys resolve filename).2
      = (stopLoop (fun e => pyIn filename e.2.cmd)
          (fun pid => kill_process_tree (resolve pid)) procs procs).2 := by
  unfold api_stop
  by_cases h : ((stopLoop (fun e => pyIn filename e.2.cmd)
      (fun pid => kill_process_tree (resolve pid)) procs procs).1
      ++ sweepKill (fun p => pyIn filename (String.intercalate " " p.2))
          (fun p => kill_process_tree (resolve p.1)) (fun p => p.1) sys).isEmpty
  · simp [h]
  · simp [h]

theorem api_stop_killed_eq (procs : Registry) (sys : List (Nat × List String))
    (resolve : Nat → KillWorld) (filename : String) :
    (api_stop procs sys resolve filename).1.killed
      = (stopLoop (fun e => pyIn filename e.2.cmd)
          (fun pid => kill_process_tree (resolve pid)) procs procs).1
        ++ sweepKill (fun p => pyIn filename (String.intercalate " " p.2))
            (fun p => kill_process_tree (resolve p.1)) (fun p => p.1) sys := by
  unfold api_stop
  by_cases h : ((stopLoop (fun e => pyIn filename e.2.cmd)
      (fun pid => kill_process_tree (resolve pid)) procs procs).1
      ++ sweepKill (fun p => pyIn filename (String.intercalate " " p.2))
          (fun p => kill_process_tree (resolve p.1)) (fun p => p.1) sys).isEmpty
  · have hnil := List.isEmpty_iff.mp h
    simp [h, hnil]
  · simp [h]

/-! Claim theorems. -/

/-- C8: `log_message` keeps the log buffer bounded to the most recent 1000
entries: every append is the appended sequence with just enough entries
discarded from the front (none when the bound is not exceeded, exactly the
overflow otherwise, leaving the most recent 1000); the resulting buffer has
length `min (old + 1) 1000` and is a suffix of the appended sequence, so
retained entries are neither reordered nor modified. -/
theorem log_message_keeps_last_1000 (st : TermState) (timestamp msg level : String) :
    (log_message st timestamp msg level).logs
        = (st.logs ++ ["[" ++ timestamp ++ "] [" ++ level ++ "] " ++ msg]).drop
            (st.logs.length + 1 - 1000)
    ∧ (log_message st timestamp msg level).logs.length = min (st.logs.length + 1) 1000
    ∧ (log_message st timestamp msg level).logs
        <:+ (st.logs ++ ["[" ++ timestamp ++ "] [" ++ level ++ "] " ++ msg]) := by
  have key : (log_message st timestamp msg level).logs
      = (st.logs ++ ["[" ++ timestamp ++ "] [" ++ level ++ "] " ++ msg]).drop
          (st.logs.length + 1 - 1000) := by
    show (if 1000 < (st.logs ++ ["[" ++ timestamp ++ "] [" ++ level ++ "] " ++ msg]).length
        then (st.logs ++ ["[" ++ timestamp ++ "] [" ++ level ++ "] " ++ msg]).drop
            ((st.logs ++ ["[" ++ timestamp ++ "] [" ++ level ++ "] " ++ msg]).length - 1000)
        else st.logs ++ ["[" ++ timestamp ++ "] [" ++ level ++ "] " ++ msg])
      = (st.logs ++ ["[" ++ timestamp ++ "] [" ++ level ++ "] " ++ msg]).drop
          (st.logs.length + 1 - 1000)
    have hlen : (st.logs ++ ["[" ++ timestamp ++ "] [" ++ level ++ "] " ++ msg]).length
        = st.logs.length + 1 := by simp
    rw [hlen]
    by_cases h : 1000 < st.logs.length + 1
    · rw [if_pos h]
    · rw [if_neg h]
      have h0 : st.logs.length + 1 - 1000 = 0 := by omega
      rw [h0, List.drop_zero]
  refine ⟨key, ?_, ?_⟩
  · rw [key, List.length_drop]
    simp only [List.length_append, List.length_cons, List.length_nil]
    omega
  · rw [key]
    exact List.drop_suffix _ _

/-- C3 counterexample: when the root process is resolved but enumerating its
descendants raises an exception other than `NoSuchProcess`, the generic
handler returns `False`, not `True` as the claim states for every path other
than a failed root resolution. -/
theorem kill_tree_children_exception_counterexample :
    ¬ (kill_process_tree (KillWorld.childrenError "psutil.AccessDenied") = true) := by
  simp [kill_process_tree]

/-- C3 (amended): `kill_process_tree` returns `True` exactly when the root is
resolved and its descendants are enumerated successfully, regardless of
failures of the individual kill calls (their exceptions are swallowed); it
returns `False` when the root cannot be resolved, and also when enumerating
descendants raises (whether `NoSuchProcess` or any other exception, which is
logged rather than surfaced). -/
theorem kill_process_tree_return_value (childKillFails : List Bool)
    (parentKillFail : Bool) (m1 m2 : String) :
    kill_process_tree (KillWorld.resolved childKillFails parentKillFail) = true
    ∧ kill_process_tree KillWorld.noSuchProcess = false
    ∧ kill_process_tree KillWorld.childrenNoSuchProcess = false
    ∧ kill_process_tree (KillWorld.resolveError m1) = false
    ∧ kill_process_tree (KillWorld.childrenError m2) = false :=
  ⟨rfl, rfl, rfl, rfl, rfl⟩

/-- C2 counterexample: because the command is spawned through a shell
(`shell=True`, bot.py line 104), executing `bogus_nonexistent_binary` does
not make `Popen` raise: `/bin/sh` spawns successfully, streams its
`command not found` complaint as an ordinary output line, and exits with
code 127.  At that spawn outcome the stream is the complaint line followed
by the exit-127 terminal marker — two chunks, not a single error line — and
neither chunk contains `Error executing command:`, refuting the claim's
named scenario. -/
theorem execute_bogus_binary_counterexample :
    (execute_command_stream ⟨[], []⟩ "09:00:00" "bogus_nonexistent_binary"
        (SpawnResult.spawned 77 ["sh: bogus_nonexistent_binary: command not found\n"] 127)).1
      = ["sh: bogus_nonexistent_binary: command not found\n",
         "\n[Process completed with exit code: 127]\n"]
    ∧ (execute_command_stream ⟨[], []⟩ "09:00:00" "bogus_nonexistent_binary"
        (SpawnResult.spawned 77 ["sh: bogus_nonexistent_binary: command not found\n"] 127)).1.length
      ≠ 1
    ∧ pyIn "Error executing command:" "sh: bogus_nonexistent_binary: command not found\n"
      = false
    ∧ pyIn "Error executing command:" "\n[Process completed with exit code: 127]\n"
      = false := by
  refine ⟨?_, ?_, ?_, ?_⟩ <;> decide

/-- C2 (amended): if the spawn call itself raises, the stream consists of
exactly one chunk, the error line `"Error executing command: <msg>\n"`
(which contains the text `Error executing command:`), and the registry is
left exactly as it was — no entry is created.  Executing
`bogus_nonexistent_binary` is not such a case: spawning through the shell
succeeds, so its pid is registered at spawn and removed again before the
terminal marker; the stream is the shell's complaint line followed by the
exit-127 marker, and the final registry once more has no entry for the
pid. -/
theorem execute_spawn_failure_amended (st : TermState) (timestamp cmd msg : String) :
    (execute_command_stream st timestamp cmd (SpawnResult.spawnError msg)).1
        = ["Error executing command: " ++ msg ++ "\n"]
    ∧ pyIn "Error executing command:" ("Error executing command: " ++ msg ++ "\n") = true
    ∧ (execute_command_stream st timestamp cmd (SpawnResult.spawnError msg)).2.processes
        = st.processes
    ∧ (execute_command_stream ⟨[], []⟩ "09:00:00" "bogus_nonexistent_binary"
        (SpawnResult.spawned 77 ["sh: bogus_nonexistent_binary: command not found\n"] 127)).1
      = ["sh: bogus_nonexistent_binary: command not found\n",
         "\n[Process completed with exit code: 127]\n"]
    ∧ dictLookup (execute_command_stream ⟨[], []⟩ "09:00:00" "bogus_nonexistent_binary"
        (SpawnResult.spawned 77
          ["sh: bogus_nonexistent_binary: command not found\n"] 127)).2.processes 77
      = none := by
  refine ⟨rfl, pyIn_error_line msg, rfl, ?_, ?_⟩
  · decide
  · decide

/-- C4: for every execution that reaches its terminal marker chunk, the
registry no longer contains the execution's pid once that chunk is produced:
the final state paired with the stream (in which the terminal marker is the
last chunk) has no entry for the pid, so a subsequent snapshot cannot
contain it. -/
theorem execute_unregisters_pid (st : TermState) (timestamp cmd : String)
    (pid : Nat) (lines : List String) (code : Int) :
    dictLookup (execute_command_stream st timestamp cmd
        (SpawnResult.spawned pid lines code)).2.processes pid = none
    ∧ (execute_command_stream st timestamp cmd (SpawnResult.spawned pid lines code)).1.getLast?
      = some ("\n[Process completed with exit code: " ++ toString code ++ "]\n") := by
  constructor
  · show dictLookup
        (if (dictLookup (dictSet st.processes pid
              ⟨cmd, if pyIn "python" (String.toLower cmd) then "python" else "bash"⟩) pid).isSome
         then dictDelete (dictSet st.processes pid
              ⟨cmd, if pyIn "python" (String.toLower cmd) then "python" else "bash"⟩) pid
         else dictSet st.processes pid
              ⟨cmd, if pyIn "python" (String.toLower cmd) then "python" else "bash"⟩) pid
      = none
    rw [dictDelete_guard]
    exact dictLookup_dictDelete_self _ _
  · exact List.getLast?_concat _

/-- C5 counterexample: with pid 7 tracked and `kill_process_tree` returning
`False` (the root process is already gone), `/api/stop_pid` leaves the
registry unchanged — pid 7 is still a member — and reports failure, refuting
the claim that the pid is removed unconditionally regardless of the kill
outcome. -/
theorem api_stop_pid_counterexample :
    (api_stop_pid [(7, ⟨"sleep 100", "bash"⟩)] (fun _ => KillWorld.noSuchProcess) 7).2
        = [(7, ⟨"sleep 100", "bash"⟩)]
    ∧ dictLookup (api_stop_pid [(7, ⟨"sleep 100", "bash"⟩)]
        (fun _ => KillWorld.noSuchProcess) 7).2 7 = some ⟨"sleep 100", "bash"⟩
    ∧ (api_stop_pid [(7, ⟨"sleep 100", "bash"⟩)] (fun _ => KillWorld.noSuchProcess) 7).1.success
        = false := by
  refine ⟨?_, ?_, ?_⟩ <;> decide

/-- C5 (amended): `/api/stop_pid` invokes `kill_process_tree(pid)`; when it
returns `True` the pid is deleted from the registry (a no-op when absent)
and the call reports success, but when it returns `False` the registry is
left unchanged and the call reports failure — removal is conditional on the
kill outcome. -/
theorem api_stop_pid_behavior (procs : Registry) (resolve : Nat → KillWorld) (pid : Nat) :
    (api_stop_pid procs resolve pid).1.success = kill_process_tree (resolve pid)
    ∧ (api_stop_pid procs resolve pid).2
        = (if kill_process_tree (resolve pid) then dictDelete procs pid else procs) := by
  cases h : kill_process_tree (resolve pid) with
  | true =>
    refine ⟨by simp [api_stop_pid, h], ?_⟩
    simp only [api_stop_pid, h, if_pos]
    rw [dictDelete_guard]
  | false => exact ⟨by simp [api_stop_pid, h], by simp [api_stop_pid, h]⟩

/-- C6 counterexample: with pid 3 tracked and `kill_process_tree` returning
`False` for it, `/api/kill_all` does not drain the registry: the entry for
pid 3 is still present afterwards, refuting the claim that every entry
present at call time is removed. -/
theorem api_kill_all_counterexample :
    (api_kill_all [(3, ⟨"sleep 100", "bash"⟩)] [] (fun _ => KillWorld.noSuchProcess)).2
      = [(3, ⟨"sleep 100", "bash"⟩)]
    ∧ (api_kill_all [(3, ⟨"sleep 100", "bash"⟩)] [] (fun _ => KillWorld.noSuchProcess)).2
      ≠ [] := by
  refine ⟨?_, ?_⟩ <;> decide

/-- C6 (amended): `/api/kill_all` calls `kill_process_tree` on every registry
entry present at call time, but removes exactly those entries for which the
call returned `True` — entries whose kill returned `False` remain; it
additionally kill-trees every scanned OS process whose lowercased name
contains `"python"`, reports every killed pid, and always reports
success. -/
theorem api_kill_all_behavior (procs : Registry) (sys : List (Nat × String))
    (resolve : Nat → KillWorld) :
    (api_kill_all procs sys resolve).2
        = procs.filter (fun e => !(kill_process_tree (resolve e.1)))
    ∧ (api_kill_all procs sys resolve).1.killed
        = (procs.filter (fun e => kill_process_tree (resolve e.1))).map (fun e => e.1)
          ++ (sys.filter (fun p => pyIn "python" (String.toLower p.2)
                && kill_process_tree (resolve p.1))).map (fun p => p.1)
    ∧ (api_kill_all procs sys resolve).1.success = true := by
  refine ⟨?_, ?_, rfl⟩
  · show (stopLoop (fun _ => true) (fun pid => kill_process_tree (resolve pid)) procs procs).2
        = procs.filter (fun e => !(kill_process_tree (resolve e.1)))
    rw [stopLoop_snd]
    apply List.filter_congr
    intro x hx
    have hany : procs.any (fun e => e.1 == x.1) = true :=
      List.any_eq_true.mpr ⟨x, hx, by simp⟩
    simp [hany]
  · show (stopLoop (fun _ => true) (fun pid => kill_process_tree (resolve pid)) procs procs).1
        ++ sweepKill (fun p => pyIn "python" (String.toLower p.2))
            (fun p => kill_process_tree (resolve p.1)) (fun p => p.1) sys
      = _
    rw [stopLoop_fst, sweepKill_eq]
    simp

theorem mapped_keys_eq (d : Registry) (pid : Nat) (v : ProcInfo) :
    (d.map (fun p => if p.1 == pid then (pid, v) else p)).map (fun p => p.1)
      = d.map (fun p => p.1) := by
  rw [List.map_map]
  apply List.map_congr_left
  intro p hp
  cases h : (p.1 == pid) with
  | true =>
    have he : p.1 = pid := by simpa using h
    simp [Function.comp, h, he]
  | false => simp [Function.comp, h]

/-- C7 counterexample: registering under pid 5 while the registry already
holds an entry for pid 5 (the dict assignment `state.processes[pid] = ...`)
silently replaces the stored metadata — there is no `DuplicateKey` failure
path, refuting the claim that such a registration fails rather than
replacing the existing entry. -/
theorem register_duplicate_counterexample :
    dictSet [(5, ⟨"sleep 5", "bash"⟩)] 5 ⟨"echo hi", "bash"⟩
        = [(5, ⟨"echo hi", "bash"⟩)]
    ∧ ((⟨"sleep 5", "bash"⟩ : ProcInfo) = ⟨"echo hi", "bash"⟩ → False) := by
  refine ⟨?_, ?_⟩ <;> decide

/-- C7 (amended): registering under a pid that is already a registry member
silently replaces the existing entry in place: the result is the pointwise
update of the old dict, the pid now maps to the new metadata, and the key
sequence is unchanged; no error of any kind is produced. -/
theorem register_duplicate_replaces (d : Registry) (pid : Nat) (v : ProcInfo)
    (h : d.any (fun p => p.1 == pid) = true) :
    dictSet d pid v = d.map (fun p => if p.1 == pid then (pid, v) else p)
    ∧ dictLookup (dictSet d pid v) pid = some v
    ∧ (dictSet d pid v).map (fun p => p.1) = d.map (fun p => p.1) := by
  refine ⟨by simp [dictSet, h], dictLookup_dictSet_self d pid v, ?_⟩
  have hset : dictSet d pid v = d.map (fun p => if p.1 == pid then (pid, v) else p) := by
    simp [dictSet, h]
  rw [hset]
  exact mapped_keys_eq d pid v

/-- Witness for `register_duplicate_replaces` at a concrete registry that
already holds pid 5. -/
theorem register_duplicate_replaces_witness :
    dictSet [(5, ⟨"sleep 5", "bash"⟩)] 5 ⟨"echo hi", "bash"⟩
        = ([(5, ⟨"sleep 5", "bash"⟩)] : Registry).map
            (fun p => if p.1 == 5 then (5, ⟨"echo hi", "bash"⟩) else p)
    ∧ dictLookup (dictSet [(5, ⟨"sleep 5", "bash"⟩)] 5 ⟨"echo hi", "bash"⟩) 5
        = some ⟨"echo hi", "bash"⟩
    ∧ (dictSet [(5, ⟨"sleep 5", "bash"⟩)] 5 ⟨"echo hi", "bash"⟩).map (fun p => p.1)
        = ([(5, ⟨"sleep 5", "bash"⟩)] : Registry).map (fun p => p.1) :=
  register_duplicate_replaces [(5, ⟨"sleep 5", "bash"⟩)] 5 ⟨"echo hi", "bash"⟩ (by decide)

/-- C9: for a `/api/ctrl` request whose key is neither "C" nor "Z", no signal
is delivered to any tracked process, yet the state is exactly the result of
writing one `Sent Ctrl+<key> to process <pid>` log entry per tracked pid (in
particular one for every tracked pid that exists), and the call reports
success. -/
theorem api_ctrl_unknown_key (st : TermState) (timestamp : String)
    (alive : Nat → Bool) (key : String) (hC : key ≠ "C") (hZ : key ≠ "Z") :
    (api_ctrl st timestamp alive key).1 = []
    ∧ (api_ctrl st timestamp alive key).2.1
        = st.processes.foldl (fun s e =>
            log_message s timestamp
              ("Sent Ctrl+" ++ key ++ " to process " ++ toString e.1) "SIGNAL") st
    ∧ (api_ctrl st timestamp alive key).2.2 = true := by
  have h := ctrlLoop_other_key alive key timestamp hC hZ st.processes st
  unfold api_ctrl
  rw [h]
  exact ⟨rfl, rfl, rfl⟩

/-- Witness for `api_ctrl_unknown_key` with key "X" and one tracked pid. -/
theorem api_ctrl_unknown_key_witness :
    (api_ctrl ⟨[(4, ⟨"sleep 9", "bash"⟩)], []⟩ "10:00:00" (fun _ => true) "X").1 = []
    ∧ (api_ctrl ⟨[(4, ⟨"sleep 9", "bash"⟩)], []⟩ "10:00:00" (fun _ => true) "X").2.1
        = ([(4, ⟨"sleep 9", "bash"⟩)] : Registry).foldl (fun s e =>
            log_message s "10:00:00"
              ("Sent Ctrl+" ++ "X" ++ " to process " ++ toString e.1) "SIGNAL")
            ⟨[(4, ⟨"sleep 9", "bash"⟩)], []⟩
    ∧ (api_ctrl ⟨[(4, ⟨"sleep 9", "bash"⟩)], []⟩ "10:00:00" (fun _ => true) "X").2.2 = true :=
  api_ctrl_unknown_key ⟨[(4, ⟨"sleep 9", "bash"⟩)], []⟩ "10:00:00" (fun _ => true) "X"
    (by decide) (by decide)

/-- C10: `/api/stop` with the empty string as filename matches every tracked
process and every scannable OS process — the empty string is a substring of
every command line — so the stop attempt degenerates to kill-treeing all of
them: the reported killed list is every tracked and every scanned pid whose
kill returned `True`, with no restriction from the match, and exactly the
registry entries whose kill returned `True` are removed. -/
theorem api_stop_empty_fragment (procs : Registry) (sys : List (Nat × List String))
    (resolve : Nat → KillWorld) :
    (∀ s : String, pyIn "" s = true)
    ∧ (api_stop procs sys resolve "").1.killed
        = (procs.filter (fun e => kill_process_tree (resolve e.1))).map (fun e => e.1)
          ++ (sys.filter (fun p => kill_process_tree (resolve p.1))).map (fun p => p.1)
    ∧ (api_stop procs sys resolve "").2
        = procs.filter (fun e => !(kill_process_tree (resolve e.1))) := by
  refine ⟨pyIn_empty_needle, ?_, ?_⟩
  · rw [api_stop_killed_eq, stopLoop_fst, sweepKill_eq]
    have h1 : procs.filter (fun e => pyIn "" e.2.cmd && kill_process_tree (resolve e.1))
        = procs.filter (fun e => kill_process_tree (resolve e.1)) := by
      apply List.filter_congr
      intro x hx
      simp [pyIn_empty_needle]
    have h2 : sys.filter (fun p => pyIn "" (String.intercalate " " p.2)
          && kill_process_tree (resolve p.1))
        = sys.filter (fun p => kill_process_tree (resolve p.1)) := by
      apply List.filter_congr
      intro x hx
      simp [pyIn_empty_needle]
    rw [h1, h2]
  · rw [api_stop_snd_eq, stopLoop_snd]
    apply List.filter_congr
    intro x hx
    have hany : procs.any (fun e => e.1 == x.1) = true :=
      List.any_eq_true.mpr ⟨x, hx, by simp⟩
    simp [pyIn_empty_needle, hany]
